import Mathlib

/-!
Verification of the core concurrency engine of a small epoll-based web
server (src/lwan.c).  The worker reactor loop (`_thread`), the death
queue for keep-alive reaping, the round-robin dispatcher
(`_schedule_request`), the acceptor loop (`lwan_main_loop`) and the
init/shutdown buffer management (`lwan_init` / `lwan_shutdown`) are
embedded shallowly; the external request processor is modelled as an
oracle per its contract.
-/

namespace Lwan

/-! Errno values used by the worker loop (Linux). -/

def EBADF : Nat := 9
def EINVAL : Nat := 22
def EINTR : Nat := 4
def EAGAIN : Nat := 11

/-! Connection slot: the fields of `lwan_request_t` that src/lwan.c
reads or writes.  `parse_state` stands for the opaque per-request
fields consumed by the external parser (zeroed by the `memset` in
`_reset_request`); `buf_id` is the identity of the `response.buffer`
pointer (preserved across resets) and `buf_len` the buffer content
length (zeroed by `strbuf_reset`). -/

structure Request where
  fd : Nat
  alive : Bool
  is_keep_alive : Bool
  time_to_die : Nat
  parse_state : Nat
  buf_id : Nat
  buf_len : Nat
deriving DecidableEq

/-- Pointwise array update, modelling an assignment to a C array cell. -/
def store (f : Nat → α) (i : Nat) (v : α) : Nat → α :=
  fun j => if j = i then v else f j

/-- Worker-thread state of `_thread` (src/lwan.c:147-244): the slot
table, the circular death queue with its indices and population, the
tick counter `death_time`, plus observation logs: the set of fds still
registered in this worker's epoll set, the fds passed to `close`, and
the `lwan_process_request` invocations with the slot state at entry. -/
structure Worker where
  max_fd : Nat
  keep_alive_timeout : Nat
  death_time : Nat
  requests : Nat → Request
  death_queue : Nat → Nat
  death_queue_first : Nat
  death_queue_last : Nat
  death_queue_population : Nat
  epoll_set : List Nat
  closed_fds : List Nat
  process_calls : List (Nat × Request)

/-- Embeds `_reset_request` (src/lwan.c:136-145): save the buffer
pointer, `memset` the whole record to zero, restore `fd` and the
buffer pointer, `strbuf_reset` the buffer. -/
def _reset_request (request : Request) (fd : Nat) : Request :=
  { fd := fd, alive := false, is_keep_alive := false, time_to_die := 0,
    parse_state := 0, buf_id := request.buf_id, buf_len := 0 }

/-- Effect of the external call `lwan_process_request` on the slot, per
its contract: it sets `is_keep_alive` and may rewrite the parse state
and the buffer contents (oracle values `ka`, `ps`, `bl`); it preserves
`fd`, `alive`, `time_to_die` and the buffer pointer. -/
def process_request_effect (r : Request) (ka : Bool) (ps bl : Nat) : Request :=
  { r with is_keep_alive := ka, parse_state := ps, buf_len := bl }

/-- Embeds the body of the per-event loop of `_thread`
(src/lwan.c:192-236) for one epoll event: `hup` is whether
`events[i].events & (EPOLLRDHUP | EPOLLHUP)` is set, `fd` is
`events[i].data.fd`, and `ka`, `ps`, `bl` are the oracle values of the
`lwan_process_request` call.  On HUP the code does `epoll_ctl(DEL)`
and jumps to `invalidate_request`, which only clears `alive` (the
`close` at line 233 is jumped over).  Otherwise: reset if not alive,
process, then either update `time_to_die` and (if not alive) append to
the death queue, or close the fd and clear `alive`. -/
def handle_event (w : Worker) (fd : Nat) (hup ka : Bool) (ps bl : Nat) : Worker :=
  if hup then
    { w with epoll_set := w.epoll_set.erase fd,
             requests := store w.requests fd { w.requests fd with alive := false } }
  else
    let r0 := w.requests fd
    let r1 := if r0.alive = false then _reset_request r0 fd else r0
    let r2 := process_request_effect r1 ka ps bl
    let w1 := { w with requests := store w.requests fd r2,
                       process_calls := (fd, r1) :: w.process_calls }
    if r2.is_keep_alive then
      let r3 := { r2 with time_to_die := w1.death_time + w1.keep_alive_timeout }
      let w2 := { w1 with requests := store w1.requests fd r3 }
      if r3.alive = false then
        { w2 with death_queue := store w2.death_queue w2.death_queue_last fd,
                  death_queue_last := (w2.death_queue_last + 1) % w2.max_fd,
                  death_queue_population := w2.death_queue_population + 1,
                  requests := store w2.requests fd { r3 with alive := true } }
      else w2
    else
      { w1 with closed_fds := fd :: w1.closed_fds,
                requests := store w1.requests fd { r2 with alive := false } }

/-- Embeds the reaping while-loop of the timeout case
(src/lwan.c:174-189), with fuel standing for the loop bound (the
population strictly decreases on every continuing iteration, so fuel
equal to the initial population runs the loop to completion).  Each
continuing iteration fetches the slot of the queue head, advances the
head modulo `max_fd`, decrements the population, clears `alive` and
closes the slot's stored `fd`. -/
def dq_reap_loop : Nat → Worker → Worker
  | 0, w => w
  | fuel+1, w =>
    if w.death_queue_population = 0 then w
    else
      let request := w.requests (w.death_queue w.death_queue_first)
      if request.time_to_die ≤ w.death_time then
        dq_reap_loop fuel
          { w with death_queue_first := (w.death_queue_first + 1) % w.max_fd,
                   death_queue_population := w.death_queue_population - 1,
                   requests := store w.requests (w.death_queue w.death_queue_first)
                                 { request with alive := false },
                   closed_fds := request.fd :: w.closed_fds }
      else w

/-- The tick increment `death_time++` of the timeout case (src/lwan.c:172). -/
def tick (w : Worker) : Worker :=
  { w with death_time := w.death_time + 1 }

/-- Embeds the whole `case 0` (timeout) arm of `_thread`
(src/lwan.c:171-190): increment the tick, then reap. -/
def handle_timeout (w : Worker) : Worker :=
  dq_reap_loop (tick w).death_queue_population (tick w)

/-- Embeds the timeout argument of `epoll_wait` in `_thread`
(src/lwan.c:160-161): `death_queue_population ? 1000 : -1`. -/
def epoll_timeout (w : Worker) : Int :=
  if w.death_queue_population ≠ 0 then 1000 else -1

/-- What the worker loop does with an `epoll_wait` error
(src/lwan.c:162-170): `EBADF`/`EINVAL` fall through to
`goto epoll_fd_closed`, `EINTR` is logged with `perror` and the loop
continues, anything else continues silently. -/
inductive LoopAction where
  | exitThread
  | logAndContinue
  | continueLoop
deriving DecidableEq

def epoll_error_action (e : Nat) : LoopAction :=
  if e = EBADF ∨ e = EINVAL then .exitThread
  else if e = EINTR then .logAndContinue
  else .continueLoop

/-- One epoll event as seen by the worker: target fd, HUP bit, and the
oracle values of the processing call. -/
inductive EventData where
  | mk (fd : Nat) (hup : Bool) (ka : Bool) (ps bl : Nat)

/-- Result of one `epoll_wait` call in the worker loop. -/
inductive EpollResult where
  | fail (errno : Nat)
  | timeout
  | ready (evs : List EventData)

/-- One iteration of the `for (;;)` loop of `_thread`
(src/lwan.c:159-238); `none` means the thread left the loop via
`goto epoll_fd_closed`. -/
def worker_iteration (w : Worker) : EpollResult → Option Worker
  | .fail e =>
    match epoll_error_action e with
    | .exitThread => none
    | _ => some w
  | .timeout => some (handle_timeout w)
  | .ready evs =>
    some (evs.foldl
      (fun acc ev => match ev with
        | .mk fd hup ka ps bl => handle_event acc fd hup ka ps bl) w)

/-! Observations on the death queue. -/

/-- The queue contents read from head to tail. -/
def dq_entries (w : Worker) : List Nat :=
  (List.range w.death_queue_population).map
    (fun i => w.death_queue ((w.death_queue_first + i) % w.max_fd))

/-- The `time_to_die` deadlines of the queued fds, head to tail. -/
def dq_deadlines (w : Worker) : List Nat :=
  (dq_entries w).map (fun fd => (w.requests fd).time_to_die)

/-- Whether a queued fd's deadline has expired at the current tick. -/
def dq_pred (w : Worker) : Nat → Bool :=
  fun fd => decide ((w.requests fd).time_to_die ≤ w.death_time)

/-- Spec-side description of reaping (section 4.4 of the spec): the
maximal expired head segment of the queue. -/
def dq_expired_spec (w : Worker) : List Nat :=
  (dq_entries w).takeWhile (dq_pred w)

/-- Spec-side description of reaping: what remains of the queue after
removing the maximal expired head segment. -/
def dq_live_spec (w : Worker) : List Nat :=
  (dq_entries w).dropWhile (dq_pred w)

/-! Structural well-formedness of the circular queue, and the ordering
invariant claimed by the spec. -/

abbrev DqWF (w : Worker) : Prop :=
  0 < w.max_fd ∧ w.death_queue_first < w.max_fd ∧
  w.death_queue_last = (w.death_queue_first + w.death_queue_population) % w.max_fd ∧
  w.death_queue_population < w.max_fd

abbrev DqInv (w : Worker) : Prop :=
  List.Pairwise (· ≤ ·) (dq_deadlines w) ∧
  ∀ fd ∈ dq_entries w, (w.requests fd).time_to_die ≤ w.death_time + w.keep_alive_timeout

/-- Reset state claimed by spec invariant 5: every field zero except
`fd` and the buffer pointer. -/
abbrev ZeroedExceptFdBuf (r : Request) : Prop :=
  r.alive = false ∧ r.is_keep_alive = false ∧ r.time_to_die = 0 ∧
  r.parse_state = 0 ∧ r.buf_len = 0

/-! The round-robin dispatcher. -/

/-- Embeds `_schedule_request` (src/lwan.c:395-405, default branch):
`counter++ % l->thread.count`; returns the old counter modulo the
thread count.  The static counter starts at 0. -/
def _schedule_request (counter thread_count : Nat) : Nat :=
  counter % thread_count

/-- The worker indices produced by `k` consecutive accepts, starting
from counter value `c`. -/
def schedule_run (thread_count : Nat) : Nat → Nat → List Nat
  | _, 0 => []
  | c, k+1 => _schedule_request c thread_count :: schedule_run thread_count (c+1) k

/-! The acceptor inner loop. -/

inductive AcceptResult where
  | ok (fd : Nat)
  | err (errno : Nat)
deriving DecidableEq

/-- Embeds the inner for-loop of `lwan_main_loop` (src/lwan.c:454-464):
`n` is the `epoll_wait` return value and `acc` the stream of `accept4`
outcomes (consumed one per call, starting at index `idx`).  Each of
the `n` iterations performs exactly one `accept4`; a failure is logged
and the iteration counter still decremented; a success is dispatched.
Returns the dispatched fds and the number of `accept4` calls made. -/
def acceptor_events_loop (acc : Nat → AcceptResult) : Nat → Nat → List Nat × Nat
  | _, 0 => ([], 0)
  | idx, n+1 =>
    match acc idx with
    | .ok fd =>
      let p := acceptor_events_loop acc (idx+1) n
      (fd :: p.1, p.2 + 1)
    | .err _ =>
      let p := acceptor_events_loop acc (idx+1) n
      (p.1, p.2 + 1)

/-- Spec-side acceptor behaviour, modelled from the spec's words
(section 4.2): repeatedly `accept4` until it would block, dispatching
each accepted fd; failures other than would-block are logged and the
accept retried.  `fuel` bounds the retries. -/
def acceptor_drain_spec (acc : Nat → AcceptResult) : Nat → Nat → List Nat × Nat
  | _, 0 => ([], 0)
  | idx, fuel+1 =>
    match acc idx with
    | .ok fd =>
      let p := acceptor_drain_spec acc (idx+1) fuel
      (fd :: p.1, p.2 + 1)
    | .err e =>
      if e = EAGAIN then ([], 1)
      else
        let p := acceptor_drain_spec acc (idx+1) fuel
        (p.1, p.2 + 1)

/-! Buffer pre-allocation and freeing (`lwan_init` / `lwan_shutdown`). -/

/-- Embeds the allocation loop of `lwan_init` (src/lwan.c:353-354):
`for (--r.rlim_cur; r.rlim_cur; --r.rlim_cur)` allocates a buffer for
slot `r.rlim_cur`, i.e. for the argument `n` (already decremented once)
it visits `n, n-1, ..., 1`. -/
def init_alloc_loop : Nat → List Nat
  | 0 => []
  | r+1 => (r+1) :: init_alloc_loop r

/-- Slots whose response buffer `lwan_init` allocates, for a table of
size `rlim_cur`. -/
def lwan_init_allocated (rlim_cur : Nat) : List Nat :=
  init_alloc_loop (rlim_cur - 1)

/-- `l->thread.max_fd = r.rlim_cur / l->thread.count` (src/lwan.c:349). -/
def lwan_max_fd (rlim_cur thread_count : Nat) : Nat :=
  rlim_cur / thread_count

/-- Embeds the freeing loop of `lwan_shutdown` (src/lwan.c:371-373):
`for (i = max_fd * count - 1; i >= 0; --i)` frees slot `i`, i.e. for
the argument `n` it visits `n-1, ..., 0`. -/
def shutdown_free_loop : Nat → List Nat
  | 0 => []
  | n+1 => n :: shutdown_free_loop n

/-- Slots whose response buffer `lwan_shutdown` frees. -/
def lwan_shutdown_freed (max_fd thread_count : Nat) : List Nat :=
  shutdown_free_loop (max_fd * thread_count)

/-! Concrete states used by counterexamples and witnesses. -/

def base_req (i : Nat) : Request :=
  { fd := 0, alive := false, is_keep_alive := false, time_to_die := 0,
    parse_state := 0, buf_id := i, buf_len := 0 }

def base_worker : Worker :=
  { max_fd := 4, keep_alive_timeout := 5, death_time := 0,
    requests := fun i => base_req i, death_queue := fun _ => 0,
    death_queue_first := 0, death_queue_last := 0, death_queue_population := 0,
    epoll_set := [0, 1, 2, 3], closed_fds := [], process_calls := [] }

/-- One keep-alive request served on fd 0: slot 0 alive and queued. -/
def w_one : Worker :=
  handle_event base_worker 0 false true 0 0

/-- Keep-alive requests served on fds 0 and 1, one reap tick, then new
activity on fd 0 (already queued): its deadline is updated in place. -/
def w_c2 : Worker :=
  handle_event
    (handle_timeout (handle_event w_one 1 false true 0 0))
    0 false true 0 0

/-- A keep-alive request on fd 0 (slot becomes alive, queued), then a
second data event on the same still-alive slot. -/
def w_c3 : Worker :=
  handle_event (handle_event base_worker 0 false true 7 0) 0 false true 0 0

/-- A keep-alive request on fd 0, then a HUP event on fd 0: the slot is
not alive any more but its queue entry is left in place and the fd was
not closed. -/
def w_c4 : Worker :=
  handle_event (handle_event base_worker 0 false true 0 0) 0 true false 0 0

/-- `w_c4` after four idle ticks: the stale entry has not expired yet. -/
def w_c4_late : Worker :=
  handle_timeout (handle_timeout (handle_timeout (handle_timeout w_c4)))

/-- A worker whose death queue is full (population = capacity). -/
def w_full : Worker :=
  { base_worker with max_fd := 2, death_queue := fun i => 10 + i,
                     death_queue_population := 2, death_queue_last := 0 }

/-- Accept stream with two pending connections, then would-block. -/
def acc_two_pending : Nat → AcceptResult :=
  fun i => if i = 0 then .ok 5 else if i = 1 then .ok 6 else .err EAGAIN

/-- Accept stream whose first call fails transiently. -/
def acc_transient : Nat → AcceptResult :=
  fun i => if i = 0 then .err EINTR else .ok 9

/-! Theorems.  Claim identifiers refer to the numbered claims about the
worker reactor, death queue, dispatcher, acceptor and lifecycle. -/

/-- C9: for every `epoll_wait` result in the worker loop, errno `EBADF`
or `EINVAL` makes the worker exit its loop, `EINTR` is logged and the
loop continues, and any other errno continues the loop. -/
theorem C9_epoll_error_dispatch :
    (∀ w : Worker, worker_iteration w (.fail EBADF) = none ∧
                   worker_iteration w (.fail EINVAL) = none ∧
                   worker_iteration w (.fail EINTR) = some w) ∧
    epoll_error_action EBADF = .exitThread ∧
    epoll_error_action EINVAL = .exitThread ∧
    epoll_error_action EINTR = .logAndContinue ∧
    ∀ e : Nat, e ≠ EBADF → e ≠ EINVAL → e ≠ EINTR →
      epoll_error_action e = .continueLoop ∧
      ∀ w : Worker, worker_iteration w (.fail e) = some w := by
  refine ⟨fun w => ⟨rfl, rfl, rfl⟩, rfl, rfl, rfl, ?_⟩
  intro e h1 h2 h3
  have ha : epoll_error_action e = .continueLoop := by
    simp only [epoll_error_action]
    rw [if_neg (by simp [h1, h2]), if_neg h3]
  refine ⟨ha, fun w => ?_⟩
  simp [worker_iteration, ha]

/-- Witness for C9 at the concrete errno 1 (`EPERM`). -/
theorem C9_witness :
    epoll_error_action 1 = .continueLoop ∧
    worker_iteration base_worker (.fail 1) = some base_worker :=
  ⟨(C9_epoll_error_dispatch.2.2.2.2 1 (by decide) (by decide) (by decide)).1,
   (C9_epoll_error_dispatch.2.2.2.2 1 (by decide) (by decide) (by decide)).2 base_worker⟩

/-- C1 counterexample: a HUP/RDHUP event on fd 3 unregisters the fd and
clears `alive`, but `closed_fds` stays empty: the `goto
invalidate_request` at src/lwan.c:198 jumps over the `close` at line
233, so the fd is not closed, contradicting the claim. -/
theorem C1_counterexample :
    (handle_event base_worker 3 true false 0 0).closed_fds = [] ∧
    ((handle_event base_worker 3 true false 0 0).requests 3).alive = false ∧
    (handle_event base_worker 3 true false 0 0).epoll_set = [0, 1, 2] := by
  decide

/-- C1 amended: on an event whose mask contains EPOLLRDHUP or EPOLLHUP
the worker unregisters the fd from its epoll set and marks the slot
not-alive before moving to the next event, but it does not close the
fd in this path; everything else (close log, processing log, other
slots, the death queue) is untouched. -/
theorem C1_hup_no_close (w : Worker) (fd : Nat) (ka : Bool) (ps bl : Nat) :
    (handle_event w fd true ka ps bl).epoll_set = w.epoll_set.erase fd ∧
    (handle_event w fd true ka ps bl).requests fd = { w.requests fd with alive := false } ∧
    (handle_event w fd true ka ps bl).closed_fds = w.closed_fds ∧
    (handle_event w fd true ka ps bl).process_calls = w.process_calls ∧
    (∀ g, g ≠ fd → (handle_event w fd true ka ps bl).requests g = w.requests g) ∧
    dq_entries (handle_event w fd true ka ps bl) = dq_entries w ∧
    (handle_event w fd true ka ps bl).death_queue_population = w.death_queue_population := by
  refine ⟨rfl, ?_, rfl, rfl, ?_, rfl, rfl⟩
  · simp [handle_event, store]
  · intro g hg
    simp [handle_event, store, hg]

/-- Witness for C1 amended: HUP on fd 2 leaves slot 0 untouched. -/
theorem C1_witness :
    (handle_event base_worker 2 true true 1 1).requests 0 = base_worker.requests 0 :=
  (C1_hup_no_close base_worker 2 true 1 1).2.2.2.2.1 0 (by decide)

/-- C3 counterexample: a keep-alive request on fd 0 followed by new
activity on the same (still alive) slot.  Two `lwan_process_request`
invocations happen on slot 0, but at the start of the second one the
slot still carries `alive = true`, `is_keep_alive = true`,
`time_to_die = 5` and parse state 7: it was not reset, because
src/lwan.c:201 resets only when the slot is not alive. -/
theorem C3_counterexample :
    w_c3.process_calls.map Prod.fst = [0, 0] ∧
    ¬ (∀ p ∈ w_c3.process_calls.take 1, ZeroedExceptFdBuf p.2) := by
  decide

/-- C3 amended: the slot state handed to `lwan_process_request` is the
reset state exactly when the slot was not marked alive at the event;
when it was alive, the un-reset slot is handed over.  The reset state
is zero in every field except `fd` (set to the event's fd) and the
response buffer pointer (preserved). -/
theorem C3_reset_iff_not_alive (w : Worker) (fd : Nat) (ka : Bool) (ps bl : Nat) :
    (handle_event w fd false ka ps bl).process_calls =
      (fd, if (w.requests fd).alive = false then _reset_request (w.requests fd) fd
           else w.requests fd) :: w.process_calls ∧
    ((w.requests fd).alive = false →
      ZeroedExceptFdBuf (_reset_request (w.requests fd) fd) ∧
      (_reset_request (w.requests fd) fd).fd = fd ∧
      (_reset_request (w.requests fd) fd).buf_id = (w.requests fd).buf_id) ∧
    ((w.requests fd).alive = true →
      (handle_event w fd false ka ps bl).process_calls =
        (fd, w.requests fd) :: w.process_calls) := by
  refine ⟨?_, ?_, ?_⟩
  · by_cases h : (w.requests fd).alive = false <;>
      simp [handle_event, h] <;> split_ifs <;> rfl
  · intro h
    simp [_reset_request, ZeroedExceptFdBuf]
  · intro h
    have h' : ¬ (w.requests fd).alive = false := by simp [h]
    simp [handle_event, h'] <;> split_ifs <;> rfl

/-- Witness for C3 amended: the reset state of slot 2 is zeroed. -/
theorem C3_witness :
    ZeroedExceptFdBuf (_reset_request (base_worker.requests 2) 2) :=
  ((C3_reset_iff_not_alive base_worker 2 true 0 0).2.1 (by decide)).1

/-- C4 counterexample: fd 0 is queued keep-alive, then HUPs (slot no
longer alive, queue entry left in place, fd not closed).  When the
entry's deadline expires, the reaper does not skip it: it closes the
slot's stored fd (value 0).  `closed_fds` goes from `[]` to `[0]`,
contradicting the claim that the stale entry is skipped without a
close. -/
theorem C4_counterexample :
    w_c4.closed_fds = [] ∧
    (w_c4.requests 0).alive = false ∧
    dq_entries w_c4 = [0] ∧
    (handle_timeout w_c4_late).closed_fds = [0] := by
  decide

/-- Appending a close only grows the close log through the reap loop. -/
theorem reap_closed_grows :
    ∀ (fuel : Nat) (w : Worker) (x : Nat),
      x ∈ w.closed_fds → x ∈ (dq_reap_loop fuel w).closed_fds := by
  intro fuel
  induction fuel with
  | zero => intro w x hx; exact hx
  | succ n ih =>
    intro w x hx
    simp only [dq_reap_loop]
    split
    · exact hx
    · split
      · exact ih _ x (List.mem_cons_of_mem _ hx)
      · exact hx

/-- An expired queue head is closed by one pass of the reap loop. -/
theorem reap_step_closes (fuel : Nat) (w : Worker)
    (hpop : w.death_queue_population ≠ 0)
    (hexp : (w.requests (w.death_queue w.death_queue_first)).time_to_die ≤ w.death_time) :
    (w.requests (w.death_queue w.death_queue_first)).fd ∈
      (dq_reap_loop (fuel + 1) w).closed_fds := by
  have hstep : dq_reap_loop (fuel + 1) w =
      dq_reap_loop fuel
        { w with death_queue_first := (w.death_queue_first + 1) % w.max_fd,
                 death_queue_population := w.death_queue_population - 1,
                 requests := store w.requests (w.death_queue w.death_queue_first)
                   { w.requests (w.death_queue w.death_queue_first) with alive := false },
                 closed_fds := (w.requests (w.death_queue w.death_queue_first)).fd ::
                   w.closed_fds } := by
    simp only [dq_reap_loop]
    rw [if_neg hpop, if_pos hexp]
  rw [hstep]
  exact reap_closed_grows fuel _ _ (List.mem_cons_self _ _)

/-- C4 amended: when the reaper reaches a stale death-queue entry (the
slot already not-alive from the HUP path) whose deadline has expired
by the new tick, it does not skip it: it closes the slot's stored fd.
Since the HUP path itself did not close the fd, this reap-time close
is the close of that fd value. -/
theorem C4_stale_entry_not_skipped (w : Worker)
    (hpop : 0 < w.death_queue_population)
    (hdead : (w.requests (w.death_queue w.death_queue_first)).alive = false)
    (hexp : (w.requests (w.death_queue w.death_queue_first)).time_to_die ≤ w.death_time + 1) :
    (w.requests (w.death_queue w.death_queue_first)).fd ∈ (handle_timeout w).closed_fds := by
  obtain ⟨n, hn⟩ := Nat.exists_eq_succ_of_ne_zero (Nat.pos_iff_ne_zero.mp hpop)
  have h0 : handle_timeout w = dq_reap_loop w.death_queue_population (tick w) := rfl
  rw [h0, hn]
  exact reap_step_closes n (tick w) (by simp [tick]; omega) hexp

/-- Witness for C4 amended, at the concrete stale state `w_c4_late`. -/
theorem C4_witness :
    (w_c4_late.requests (w_c4_late.death_queue w_c4_late.death_queue_first)).fd ∈
      (handle_timeout w_c4_late).closed_fds :=
  C4_stale_entry_not_skipped w_c4_late (by decide) (by decide) (by decide)

/-- Membership in the init allocation loop: slots `1 .. n`. -/
theorem mem_init_alloc_loop (n i : Nat) : i ∈ init_alloc_loop n ↔ 1 ≤ i ∧ i ≤ n := by
  induction n with
  | zero => simp [init_alloc_loop]; omega
  | succ n ih =>
    simp [init_alloc_loop, ih]
    omega

/-- Membership in the shutdown free loop: slots `0 .. n-1`. -/
theorem mem_shutdown_free_loop (n i : Nat) : i ∈ shutdown_free_loop n ↔ i < n := by
  induction n with
  | zero => simp [shutdown_free_loop]
  | succ n ih =>
    simp [shutdown_free_loop, ih]
    omega

/-- C7 counterexample: with `rlim_cur = 5` and 2 worker threads, slot 0
gets no buffer at init (the loop at src/lwan.c:353 pre-decrements and
stops at 1), while slot 4 gets one but is never freed at shutdown
(the loop at src/lwan.c:372 stops at `max_fd * count - 1 = 3`); slot 0
is freed without ever having been allocated. -/
theorem C7_counterexample :
    0 ∉ lwan_init_allocated 5 ∧
    4 ∈ lwan_init_allocated 5 ∧
    4 ∉ lwan_shutdown_freed (lwan_max_fd 5 2) 2 ∧
    0 ∈ lwan_shutdown_freed (lwan_max_fd 5 2) 2 := by
  decide

/-- C7 amended: `lwan_init` pre-allocates response buffers exactly for
slots 1 through `rlim_cur - 1` (slot 0 excluded), and `lwan_shutdown`
frees exactly slots 0 through `(rlim_cur / thread_count) * thread_count
- 1` (the remainder slots at the top are never freed). -/
theorem C7_alloc_free_ranges (rlim count i : Nat) (hr : 1 ≤ rlim) :
    (i ∈ lwan_init_allocated rlim ↔ 1 ≤ i ∧ i ≤ rlim - 1) ∧
    (i ∈ lwan_shutdown_freed (lwan_max_fd rlim count) count ↔ i < rlim / count * count) := by
  exact ⟨mem_init_alloc_loop _ _, mem_shutdown_free_loop _ _⟩

/-- Witness for C7 amended at `rlim_cur = 5`, 2 threads, slot 3. -/
theorem C7_witness :
    (3 ∈ lwan_init_allocated 5 ↔ 1 ≤ 3 ∧ 3 ≤ 5 - 1) ∧
    (3 ∈ lwan_shutdown_freed (lwan_max_fd 5 2) 2 ↔ 3 < 5 / 2 * 2) :=
  C7_alloc_free_ranges 5 2 3 (by decide)

/-- C8 counterexample: with one readiness event and two connections
pending, the acceptor loop of `lwan_main_loop` performs exactly one
`accept4` and dispatches only fd 5, while the spec's drain-until-would-
block dispatches both 5 and 6; and after a transient failure the code
does not retry the accept within the wakeup (it dispatches nothing),
while the spec's retry behaviour dispatches fd 9. -/
theorem C8_counterexample :
    acceptor_events_loop acc_two_pending 0 1 = ([5], 1) ∧
    acceptor_drain_spec acc_two_pending 0 5 = ([5, 6], 3) ∧
    (acceptor_events_loop acc_two_pending 0 1).1 ≠ (acceptor_drain_spec acc_two_pending 0 5).1 ∧
    acceptor_events_loop acc_transient 0 1 = ([], 1) ∧
    (acceptor_drain_spec acc_transient 0 2).1 = [9] := by
  decide

/-- C8 amended: for an `epoll_wait` return of `n` events, the acceptor
performs exactly `n` `accept4` calls, one per event; each success is
dispatched to a worker and each failure (would-block included) is
logged and skipped without retry inside that wakeup. -/
theorem C8_one_accept_per_event (acc : Nat → AcceptResult) :
    ∀ (idx n : Nat),
      (acceptor_events_loop acc idx n).2 = n ∧
      (acceptor_events_loop acc idx n).1 =
        ((List.range n).map (fun i => acc (idx + i))).filterMap
          (fun r => match r with | .ok fd => some fd | .err _ => none) := by
  intro idx n
  induction n generalizing idx with
  | zero => exact ⟨rfl, rfl⟩
  | succ n ih =>
    have hrange : (List.range (n+1)).map (fun i => acc (idx + i)) =
        acc idx :: (List.range n).map (fun i => acc (idx + 1 + i)) := by
      rw [List.range_succ_eq_map, List.map_cons, List.map_map]
      refine congrArg₂ _ (by simp) (List.map_congr_left ?_)
      intro i _
      simp only [Function.comp_apply]
      congr 1
      omega
    obtain ⟨ih2, ih1⟩ := ih (idx + 1)
    cases h : acc idx with
    | ok fd =>
      simp only [acceptor_events_loop, h, hrange, List.filterMap_cons]
      exact ⟨by rw [ih2], by rw [ih1]⟩
    | err e =>
      simp only [acceptor_events_loop, h, hrange, List.filterMap_cons]
      exact ⟨by rw [ih2], by rw [ih1]⟩

/-- C10: with the queue full (`population = max_fd`) the tail index has
wrapped onto the head; a keep-alive append performs no capacity check,
overwrites the head cell (the oldest unconsumed entry) and leaves the
population strictly above the capacity. -/
theorem C10_append_unchecked (w : Worker) (fd ps bl : Nat)
    (hcap : 0 < w.max_fd)
    (hfirst : w.death_queue_first < w.max_fd)
    (hlast : w.death_queue_last = (w.death_queue_first + w.death_queue_population) % w.max_fd)
    (hfull : w.death_queue_population = w.max_fd)
    (halive : (w.requests fd).alive = false) :
    w.death_queue_last = w.death_queue_first ∧
    (handle_event w fd false true ps bl).death_queue w.death_queue_first = fd ∧
    (handle_event w fd false true ps bl).death_queue_population = w.max_fd + 1 ∧
    w.max_fd < (handle_event w fd false true ps bl).death_queue_population := by
  have hl : w.death_queue_last = w.death_queue_first := by
    rw [hlast, hfull, Nat.add_mod_right, Nat.mod_eq_of_lt hfirst]
  refine ⟨hl, ?_, ?_, ?_⟩ <;>
    simp [handle_event, halive, process_request_effect, _reset_request, store, hl, hfull]

/-- Evaluating a store at its own index. -/
theorem store_same (f : Nat → α) (i : Nat) (v : α) : store f i v i = v := by
  simp [store]

/-- Evaluating a store elsewhere. -/
theorem store_ne (f : Nat → α) (i : Nat) (v : α) (j : Nat) (h : j ≠ i) :
    store f i v j = f j := by
  simp [store, h]

/-- The queue length always matches the population counter. -/
theorem dq_entries_length (w : Worker) :
    (dq_entries w).length = w.death_queue_population := by
  simp [dq_entries]

/-- The entries only depend on the queue array, the indices and the
capacity. -/
theorem dq_entries_congr (w w' : Worker)
    (h1 : w'.max_fd = w.max_fd) (h2 : w'.death_queue = w.death_queue)
    (h3 : w'.death_queue_first = w.death_queue_first)
    (h4 : w'.death_queue_population = w.death_queue_population) :
    dq_entries w' = dq_entries w := by
  unfold dq_entries
  rw [h1, h2, h3, h4]

/-- Decomposing a non-empty circular-buffer view at its head. -/
theorem entries_cons (queue : Nat → Nat) (cap first n : Nat) (hfirst : first < cap) :
    (List.range (n+1)).map (fun i => queue ((first + i) % cap)) =
      queue first ::
        (List.range n).map (fun i => queue (((first + 1) % cap + i) % cap)) := by
  rw [List.range_succ_eq_map, List.map_cons, List.map_map]
  refine congrArg₂ _ ?_ (List.map_congr_left ?_)
  · simp [Nat.mod_eq_of_lt hfirst]
  · intro i _
    simp only [Function.comp_apply]
    congr 1
    rw [Nat.mod_add_mod]
    congr 1
    omega

/-- Distinct offsets below the capacity land on distinct cells. -/
theorem mod_shift_ne (cap first i pop : Nat) (hi : i < pop) (hpop : pop < cap) :
    (first + i) % cap ≠ (first + pop) % cap := by
  intro h
  have h2 : cap ∣ (first + pop) - (first + i) :=
    (Nat.modEq_iff_dvd' (by omega)).mp h
  have h3 : (first + pop) - (first + i) = pop - i := by omega
  rw [h3] at h2
  have h4 : cap ≤ pop - i := Nat.le_of_dvd (by omega) h2
  omega

/-- Writing at the tail of a circular-buffer view appends one entry. -/
theorem entries_snoc (queue : Nat → Nat) (cap first pop fdv : Nat) (hpop : pop < cap) :
    (List.range (pop+1)).map
        (fun i => (store queue ((first + pop) % cap) fdv) ((first + i) % cap)) =
      ((List.range pop).map (fun i => queue ((first + i) % cap))) ++ [fdv] := by
  rw [List.range_succ, List.map_append, List.map_cons, List.map_nil]
  refine congrArg₂ _ (List.map_congr_left ?_) ?_
  · intro i hi
    have hi' : i < pop := List.mem_range.mp hi
    simp [store, mod_shift_ne cap first i pop hi' hpop]
  · simp [store]

/-- The expiry test only depends on the deadlines and the tick. -/
theorem dq_pred_congr (w w' : Worker)
    (h1 : ∀ g, (w'.requests g).time_to_die = (w.requests g).time_to_die)
    (h2 : w'.death_time = w.death_time) :
    dq_pred w' = dq_pred w := by
  funext g
  unfold dq_pred
  rw [decide_eq_decide, h1 g, h2]

/-- Characterization of the reaping loop against the spec-side
description: it removes precisely the maximal expired head segment of
the queue, closes the stored fd of every removed slot (in order) and
clears their `alive` flags, leaving deadlines, stored fds, the tick
and the configuration untouched. -/
theorem dq_reap_loop_spec :
    ∀ (fuel : Nat) (w : Worker),
      0 < w.max_fd → w.death_queue_first < w.max_fd →
      w.death_queue_population ≤ fuel →
      dq_entries (dq_reap_loop fuel w) = dq_live_spec w ∧
      (dq_reap_loop fuel w).death_queue_population = (dq_live_spec w).length ∧
      (dq_reap_loop fuel w).closed_fds =
        ((dq_expired_spec w).map (fun fd => (w.requests fd).fd)).reverse ++ w.closed_fds ∧
      (∀ fd, ((dq_reap_loop fuel w).requests fd).time_to_die =
        (w.requests fd).time_to_die) ∧
      (∀ fd, ((dq_reap_loop fuel w).requests fd).fd = (w.requests fd).fd) ∧
      (∀ fd, (w.requests fd).alive = false →
        ((dq_reap_loop fuel w).requests fd).alive = false) ∧
      (∀ fd ∈ dq_expired_spec w, ((dq_reap_loop fuel w).requests fd).alive = false) ∧
      (dq_reap_loop fuel w).death_time = w.death_time ∧
      (dq_reap_loop fuel w).max_fd = w.max_fd ∧
      (dq_reap_loop fuel w).keep_alive_timeout = w.keep_alive_timeout := by
  intro fuel
  induction fuel with
  | zero =>
    intro w _ _ hfuel
    have hpop0 : w.death_queue_population = 0 := Nat.le_zero.mp hfuel
    have hent : dq_entries w = [] := by simp [dq_entries, hpop0]
    have hlive : dq_live_spec w = [] := by simp [dq_live_spec, hent]
    have hexp : dq_expired_spec w = [] := by simp [dq_expired_spec, hent]
    have hid : dq_reap_loop 0 w = w := rfl
    rw [hid]
    refine ⟨?_, ?_, ?_, fun fd => rfl, fun fd => rfl, fun fd h => h, ?_, rfl, rfl, rfl⟩
    · rw [hent, hlive]
    · rw [hlive]
      simpa using hpop0
    · rw [hexp]
      simp
    · rw [hexp]
      simp
  | succ fuel ih =>
    intro w hcap hfirst hfuel
    by_cases hpop0 : w.death_queue_population = 0
    · have hid : dq_reap_loop (fuel+1) w = w := by
        simp only [dq_reap_loop]
        rw [if_pos hpop0]
      have hent : dq_entries w = [] := by simp [dq_entries, hpop0]
      have hlive : dq_live_spec w = [] := by simp [dq_live_spec, hent]
      have hexp : dq_expired_spec w = [] := by simp [dq_expired_spec, hent]
      rw [hid]
      refine ⟨?_, ?_, ?_, fun fd => rfl, fun fd => rfl, fun fd h => h, ?_, rfl, rfl, rfl⟩
      · rw [hent, hlive]
      · rw [hlive]
        simpa using hpop0
      · rw [hexp]
        simp
      · rw [hexp]
        simp
    · obtain ⟨n, hn⟩ := Nat.exists_eq_succ_of_ne_zero hpop0
      have hent : dq_entries w = w.death_queue w.death_queue_first ::
          (List.range n).map
            (fun i => w.death_queue
              (((w.death_queue_first + 1) % w.max_fd + i) % w.max_fd)) := by
        unfold dq_entries
        rw [hn]
        exact entries_cons w.death_queue w.max_fd w.death_queue_first n hfirst
      by_cases hx :
          (w.requests (w.death_queue w.death_queue_first)).time_to_die ≤ w.death_time
      · have hstep : dq_reap_loop (fuel+1) w =
            dq_reap_loop fuel
              { w with
                death_queue_first := (w.death_queue_first + 1) % w.max_fd,
                death_queue_population := w.death_queue_population - 1,
                requests := store w.requests (w.death_queue w.death_queue_first)
                  { w.requests (w.death_queue w.death_queue_first) with alive := false },
                closed_fds := (w.requests (w.death_queue w.death_queue_first)).fd ::
                  w.closed_fds } := by
          simp only [dq_reap_loop]
          rw [if_neg hpop0, if_pos hx]
        set e := w.death_queue w.death_queue_first with he
        set wnext : Worker :=
          { w with
            death_queue_first := (w.death_queue_first + 1) % w.max_fd,
            death_queue_population := w.death_queue_population - 1,
            requests := store w.requests e
              { w.requests e with alive := false },
            closed_fds := (w.requests e).fd :: w.closed_fds } with hwnext
        have httd : ∀ g, (wnext.requests g).time_to_die = (w.requests g).time_to_die := by
          intro g
          by_cases h : g = e <;> simp [hwnext, store, h]
        have hfd : ∀ g, (wnext.requests g).fd = (w.requests g).fd := by
          intro g
          by_cases h : g = e <;> simp [hwnext, store, h]
        have halive : ∀ g, (w.requests g).alive = false →
            (wnext.requests g).alive = false := by
          intro g hg
          by_cases h : g = e <;> simp [hwnext, store, h, hg]
        have halive_e : (wnext.requests e).alive = false := by
          simp [hwnext, store]
        have hpred : dq_pred wnext = dq_pred w :=
          dq_pred_congr w wnext httd rfl
        have hentnext : dq_entries wnext =
            (List.range n).map
              (fun i => w.death_queue
                (((w.death_queue_first + 1) % w.max_fd + i) % w.max_fd)) := by
          unfold dq_entries
          rw [show wnext.death_queue_population = n by simp [hwnext, hn]]
        have hpe : dq_pred w e = true := by
          unfold dq_pred
          exact decide_eq_true hx
        have hlive : dq_live_spec w = dq_live_spec wnext := by
          unfold dq_live_spec
          rw [hent, hentnext, List.dropWhile_cons, hpred, if_pos hpe]
        have hexp : dq_expired_spec w = e :: dq_expired_spec wnext := by
          unfold dq_expired_spec
          rw [hent, hentnext, List.takeWhile_cons, hpred, if_pos hpe]
        obtain ⟨ih1, ih2, ih3, ih4, ih5, ih6, ih7, ih8, ih9, ih10⟩ :=
          ih wnext hcap (Nat.mod_lt _ hcap) (by simp [hwnext, hn]; omega)
        rw [hstep]
        refine ⟨?_, ?_, ?_, ?_, ?_, ?_, ?_, ?_, ?_, ?_⟩
        · rw [ih1, hlive]
        · rw [ih2, hlive]
        · rw [ih3, hexp, List.map_cons, List.reverse_cons, List.append_assoc]
          have hm : (dq_expired_spec wnext).map (fun fd => (wnext.requests fd).fd) =
              (dq_expired_spec wnext).map (fun fd => (w.requests fd).fd) :=
            List.map_congr_left (fun g _ => hfd g)
          rw [hm]
          rfl
        · intro fd
          rw [ih4, httd]
        · intro fd
          rw [ih5, hfd]
        · intro fd h
          exact ih6 fd (halive fd h)
        · intro fd hmem
          rw [hexp] at hmem
          rcases List.mem_cons.mp hmem with h | h
          · subst h
            exact ih6 e halive_e
          · exact ih7 fd h
        · rw [ih8]
        · rw [ih9]
        · rw [ih10]
      · have hid : dq_reap_loop (fuel+1) w = w := by
          simp only [dq_reap_loop]
          rw [if_neg hpop0, if_neg hx]
        have hpe : dq_pred w (w.death_queue w.death_queue_first) = false := by
          unfold dq_pred
          exact decide_eq_false hx
        have hlive : dq_live_spec w = dq_entries w := by
          unfold dq_live_spec
          rw [hent, List.dropWhile_cons, if_neg (by rw [hpe]; exact Bool.false_ne_true)]
        have hexp : dq_expired_spec w = [] := by
          unfold dq_expired_spec
          rw [hent, List.takeWhile_cons, if_neg (by rw [hpe]; exact Bool.false_ne_true)]
        rw [hid]
        refine ⟨?_, ?_, ?_, fun fd => rfl, fun fd => rfl, fun fd h => h, ?_, rfl, rfl, rfl⟩
        · rw [hlive]
        · rw [hlive, dq_entries_length]
        · rw [hexp]
          simp
        · rw [hexp]
          simp

/-- C5: in every worker loop iteration, the `epoll_wait` timeout is
1000 ms when the death queue is non-empty and infinite (-1) otherwise;
and the timeout case first increments the tick, then reaps exactly the
maximal head segment of expired entries: each reaped slot is marked
not-alive and its stored fd closed (in queue order), the head advances
past them and the population decreases accordingly, stopping at the
first entry whose deadline has not expired. -/
theorem C5_timeout_and_reap (w : Worker)
    (hcap : 0 < w.max_fd) (hfirst : w.death_queue_first < w.max_fd) :
    epoll_timeout w = (if dq_entries w = [] then -1 else 1000) ∧
    (handle_timeout w).death_time = w.death_time + 1 ∧
    dq_entries (handle_timeout w) = dq_live_spec (tick w) ∧
    (handle_timeout w).death_queue_population = (dq_live_spec (tick w)).length ∧
    (handle_timeout w).closed_fds =
      ((dq_expired_spec (tick w)).map (fun fd => (w.requests fd).fd)).reverse ++
        w.closed_fds ∧
    ∀ fd ∈ dq_expired_spec (tick w), ((handle_timeout w).requests fd).alive = false := by
  obtain ⟨h1, h2, h3, _, _, _, h7, h8, _, _⟩ :=
    dq_reap_loop_spec (tick w).death_queue_population (tick w) hcap hfirst (le_refl _)
  have h1' : dq_entries (handle_timeout w) = dq_live_spec (tick w) := h1
  have h2' : (handle_timeout w).death_queue_population = (dq_live_spec (tick w)).length := h2
  have h3' : (handle_timeout w).closed_fds =
      ((dq_expired_spec (tick w)).map (fun fd => (w.requests fd).fd)).reverse ++
        w.closed_fds := h3
  have h7' : ∀ fd ∈ dq_expired_spec (tick w),
      ((handle_timeout w).requests fd).alive = false := h7
  have h8' : (handle_timeout w).death_time = w.death_time + 1 := h8
  refine ⟨?_, h8', h1', h2', h3', h7'⟩
  by_cases hp : w.death_queue_population = 0
  · simp [epoll_timeout, hp, dq_entries]
  · have hne : dq_entries w ≠ [] := by
      simp [dq_entries, hp]
    rw [if_neg hne]
    simp [epoll_timeout, hp]

/-- Witness for C5 at the concrete state `w_c2`. -/
theorem C5_witness :
    dq_entries (handle_timeout w_c2) = dq_live_spec (tick w_c2) :=
  (C5_timeout_and_reap w_c2 (by decide) (by decide)).2.2.1

/-- C2 counterexample: two keep-alive fds queued at tick 0 with
deadline 5; after one idle tick, new activity on the queued fd 0
updates its deadline in place to 6 without moving it, leaving the
queue deadlines `[6, 5]` read head to tail: not non-decreasing. -/
theorem C2_counterexample :
    dq_deadlines w_c2 = [6, 5] ∧
    ¬ List.Pairwise (· ≤ ·) (dq_deadlines w_c2) := by
  decide

/-- The ordering invariant transfers along equal queues with equal
deadlines and a tick that has not decreased. -/
theorem dqinv_congr (w w' : Worker)
    (hent : dq_entries w' = dq_entries w)
    (httd : ∀ g ∈ dq_entries w,
      (w'.requests g).time_to_die = (w.requests g).time_to_die)
    (hdt : w.death_time ≤ w'.death_time)
    (hT : w'.keep_alive_timeout = w.keep_alive_timeout)
    (hinv : DqInv w) : DqInv w' := by
  obtain ⟨hpair, hbound⟩ := hinv
  constructor
  · have hdl : dq_deadlines w' = dq_deadlines w := by
      unfold dq_deadlines
      rw [hent]
      exact List.map_congr_left httd
    rw [hdl]
    exact hpair
  · intro g hg
    rw [hent] at hg
    rw [httd g hg, hT]
    exact le_trans (hbound g hg) (by omega)

/-- Shape of a non-HUP event that does not append to the death queue
(the request was not keep-alive, or the slot was already alive and
queued): the queue, tick and configuration are untouched and only the
event's slot changes. -/
theorem handle_event_no_append (w : Worker) (fd : Nat) (ka : Bool) (ps bl : Nat)
    (hcase : ka = false ∨ (w.requests fd).alive = true) :
    (handle_event w fd false ka ps bl).max_fd = w.max_fd ∧
    (handle_event w fd false ka ps bl).death_queue = w.death_queue ∧
    (handle_event w fd false ka ps bl).death_queue_first = w.death_queue_first ∧
    (handle_event w fd false ka ps bl).death_queue_population = w.death_queue_population ∧
    (handle_event w fd false ka ps bl).death_time = w.death_time ∧
    (handle_event w fd false ka ps bl).keep_alive_timeout = w.keep_alive_timeout ∧
    ∀ g, g ≠ fd → (handle_event w fd false ka ps bl).requests g = w.requests g := by
  by_cases hk : ka = false
  · subst hk
    refine ⟨rfl, rfl, rfl, rfl, rfl, rfl, ?_⟩
    intro g hg
    simp [handle_event, process_request_effect, store, hg]
  · have hk' : ka = true := by revert hk; cases ka <;> simp
    subst hk'
    have h : (w.requests fd).alive = true := by
      rcases hcase with h | h
      · exact absurd h (by simp)
      · exact h
    have ha : ¬ ((w.requests fd).alive = false) := by simp [h]
    refine ⟨?_, ?_, ?_, ?_, ?_, ?_, ?_⟩
    case _ => simp [handle_event, ha, h, process_request_effect]
    case _ => simp [handle_event, ha, h, process_request_effect]
    case _ => simp [handle_event, ha, h, process_request_effect]
    case _ => simp [handle_event, ha, h, process_request_effect]
    case _ => simp [handle_event, ha, h, process_request_effect]
    case _ => simp [handle_event, ha, h, process_request_effect]
    case _ =>
      intro g hg
      simp [handle_event, ha, h, process_request_effect, store, hg]

/-- Shape of a keep-alive event on a not-alive slot: the fd is appended
at the tail, the population grows by one, and the slot becomes alive
with deadline `death_time + keep_alive_timeout`. -/
theorem handle_event_append (w : Worker) (fd ps bl : Nat)
    (h : (w.requests fd).alive = false) :
    (handle_event w fd false true ps bl).max_fd = w.max_fd ∧
    (handle_event w fd false true ps bl).death_queue =
      store w.death_queue w.death_queue_last fd ∧
    (handle_event w fd false true ps bl).death_queue_first = w.death_queue_first ∧
    (handle_event w fd false true ps bl).death_queue_population =
      w.death_queue_population + 1 ∧
    (handle_event w fd false true ps bl).death_queue_last =
      (w.death_queue_last + 1) % w.max_fd ∧
    (handle_event w fd false true ps bl).death_time = w.death_time ∧
    (handle_event w fd false true ps bl).keep_alive_timeout = w.keep_alive_timeout ∧
    (handle_event w fd false true ps bl).requests fd =
      { fd := fd, alive := true, is_keep_alive := true,
        time_to_die := w.death_time + w.keep_alive_timeout,
        parse_state := ps, buf_id := (w.requests fd).buf_id, buf_len := bl } ∧
    ∀ g, g ≠ fd → (handle_event w fd false true ps bl).requests g = w.requests g := by
  refine ⟨?_, ?_, ?_, ?_, ?_, ?_, ?_, ?_, ?_⟩
  case _ => simp [handle_event, h, process_request_effect, _reset_request]
  case _ => simp [handle_event, h, process_request_effect, _reset_request]
  case _ => simp [handle_event, h, process_request_effect, _reset_request]
  case _ => simp [handle_event, h, process_request_effect, _reset_request]
  case _ => simp [handle_event, h, process_request_effect, _reset_request]
  case _ => simp [handle_event, h, process_request_effect, _reset_request]
  case _ => simp [handle_event, h, process_request_effect, _reset_request]
  case _ => simp [handle_event, h, process_request_effect, _reset_request, store]
  case _ =>
    intro g hg
    simp [handle_event, h, process_request_effect, _reset_request, store, hg]

/-- C2 amended: the non-decreasing-deadline order of the death queue is
preserved by HUP handling, by the timeout/reap path, and by events on
fds not currently in the queue (in particular fresh keep-alive
appends); what breaks it — as the counterexample shows — is an event
on an fd already queued, whose deadline is updated in place. -/
theorem C2_order_preservation (w : Worker) (hwf : DqWF w) (hinv : DqInv w) :
    (∀ fd ka ps bl, DqInv (handle_event w fd true ka ps bl)) ∧
    DqInv (handle_timeout w) ∧
    ∀ fd ka ps bl, fd ∉ dq_entries w → DqInv (handle_event w fd false ka ps bl) := by
  obtain ⟨hcap, hfirst, hlast, hpop⟩ := hwf
  refine ⟨?_, ?_, ?_⟩
  · intro fd ka ps bl
    refine dqinv_congr w _ rfl ?_ (le_refl _) rfl hinv
    intro g _
    by_cases hg : g = fd <;> simp [handle_event, store, hg]
  · obtain ⟨h1, _, _, h4, _, _, _, h8, _, h10⟩ :=
      dq_reap_loop_spec (tick w).death_queue_population (tick w) hcap hfirst (le_refl _)
    have h1' : dq_entries (handle_timeout w) = dq_live_spec (tick w) := h1
    have h4' : ∀ g, ((handle_timeout w).requests g).time_to_die =
        (w.requests g).time_to_die := h4
    have h8' : (handle_timeout w).death_time = w.death_time + 1 := h8
    have h10' : (handle_timeout w).keep_alive_timeout = w.keep_alive_timeout := h10
    obtain ⟨hpair, hbound⟩ := hinv
    have hLsub : List.Sublist (dq_live_spec (tick w)) (dq_entries w) :=
      List.dropWhile_sublist _
    constructor
    · have hdl : dq_deadlines (handle_timeout w) =
          (dq_live_spec (tick w)).map (fun g => (w.requests g).time_to_die) := by
        unfold dq_deadlines
        rw [h1']
        exact List.map_congr_left (fun g _ => h4' g)
      rw [hdl]
      have hsub2 : List.Sublist
          ((dq_live_spec (tick w)).map (fun g => (w.requests g).time_to_die))
          (dq_deadlines w) := hLsub.map _
      exact hpair.sublist hsub2
    · intro g hg
      rw [h1'] at hg
      have hgw : g ∈ dq_entries w := hLsub.subset hg
      rw [h4' g, h8', h10']
      exact le_trans (hbound g hgw) (by omega)
  · intro fd ka ps bl hnot
    by_cases hk : ka = false
    · subst hk
      obtain ⟨m1, m2, m3, m4, m5, m6, m7⟩ :=
        handle_event_no_append w fd false ps bl (Or.inl rfl)
      refine dqinv_congr w _ (dq_entries_congr _ _ m1 m2 m3 m4) ?_ (le_of_eq m5.symm)
        m6 hinv
      intro g hg
      rw [m7 g (fun hEq => hnot (hEq ▸ hg))]
    · have hk' : ka = true := by revert hk; cases ka <;> simp
      subst hk'
      by_cases ha : (w.requests fd).alive = false
      · obtain ⟨m1, m2, m3, m4, m5, m6, m7, m8, m9⟩ := handle_event_append w fd ps bl ha
        obtain ⟨hpair, hbound⟩ := hinv
        have hent : dq_entries (handle_event w fd false true ps bl) =
            dq_entries w ++ [fd] := by
          unfold dq_entries
          rw [m1, m2, m3, m4, hlast]
          exact entries_snoc w.death_queue w.max_fd w.death_queue_first
            w.death_queue_population fd hpop
        have hdl : dq_deadlines (handle_event w fd false true ps bl) =
            dq_deadlines w ++ [w.death_time + w.keep_alive_timeout] := by
          unfold dq_deadlines
          rw [hent, List.map_append]
          refine congrArg₂ _ (List.map_congr_left ?_) ?_
          · intro g hg
            rw [m9 g (fun hEq => hnot (hEq ▸ hg))]
          · simp [m8]
        constructor
        · rw [hdl, List.pairwise_append]
          refine ⟨hpair, by simp, ?_⟩
          intro a ha' b hb
          have hb' : b = w.death_time + w.keep_alive_timeout := by simpa using hb
          subst hb'
          unfold dq_deadlines at ha'
          obtain ⟨g, hg, rfl⟩ := List.mem_map.mp ha'
          exact hbound g hg
        · intro g hg
          rw [hent] at hg
          rcases List.mem_append.mp hg with hmem | hmem
          · rw [m9 g (fun hEq => hnot (hEq ▸ hmem)), m6, m7]
            exact hbound g hmem
          · have hgfd : g = fd := by simpa using hmem
            subst hgfd
            simp [m8, m6, m7]
      · have ha' : (w.requests fd).alive = true := by
          revert ha; cases (w.requests fd).alive <;> simp
        obtain ⟨m1, m2, m3, m4, m5, m6, m7⟩ :=
          handle_event_no_append w fd true ps bl (Or.inr ha')
        refine dqinv_congr w _ (dq_entries_congr _ _ m1 m2 m3 m4) ?_ (le_of_eq m5.symm)
          m6 hinv
        intro g hg
        rw [m7 g (fun hEq => hnot (hEq ▸ hg))]

/-- Witness for C2 amended: a fresh keep-alive append on fd 2 preserves
the invariant from the reachable state `w_one`. -/
theorem C2_witness : DqInv (handle_event w_one 2 false true 0 0) :=
  (C2_order_preservation w_one (by decide) (by decide)).2.2 2 true 0 0 (by decide)

/-- The dispatcher outputs are successive counter values modulo the
worker count. -/
theorem schedule_run_eq (N : Nat) :
    ∀ c k, schedule_run N c k = (List.range k).map (fun i => (c + i) % N) := by
  intro c k
  induction k generalizing c with
  | zero => simp [schedule_run]
  | succ k ih =>
    simp only [schedule_run, _schedule_request]
    rw [ih (c+1), List.range_succ_eq_map, List.map_cons, List.map_map]
    refine congrArg₂ _ (by simp) (List.map_congr_left ?_)
    intro i _
    simp only [Function.comp_apply]
    congr 1
    omega

/-- How many of the first `K` residues modulo `N` equal `w`. -/
theorem count_mod_range (N w : Nat) (hN : 0 < N) (hw : w < N) :
    ∀ K, ((List.range K).map (fun i => i % N)).count w =
      K / N + if w < K % N then 1 else 0 := by
  intro K
  induction K with
  | zero => simp
  | succ K ih =>
    rw [List.range_succ, List.map_append, List.count_append, ih]
    have hsingle : (List.map (fun i => i % N) [K]).count w =
        if K % N = w then 1 else 0 := by
      simp [List.count_singleton']
    rw [hsingle]
    have hmod : K % N < N := Nat.mod_lt _ hN
    by_cases hd : K % N = N - 1
    · have hdvd : N ∣ K + 1 := by
        have h1 := Nat.div_add_mod K N
        refine ⟨K / N + 1, ?_⟩
        have h2 : N * (K / N + 1) = N * (K / N) + N := by ring
        rw [h2]
        generalize N * (K / N) = a at h1 ⊢
        omega
      have hdiv : (K + 1) / N = K / N + 1 := by
        rw [Nat.succ_div, if_pos hdvd]
      have hmod1 : (K + 1) % N = 0 := Nat.mod_eq_zero_of_dvd hdvd
      rw [hdiv, hmod1]
      split_ifs <;> omega
    · have hdvd : ¬ N ∣ K + 1 := by
        intro hdvd
        have h0 : (K + 1) % N = 0 := Nat.mod_eq_zero_of_dvd hdvd
        have h1 : (K + 1) % N = (K % N + 1) % N := (Nat.mod_add_mod K N 1).symm
        have h2 : (K % N + 1) % N = K % N + 1 := Nat.mod_eq_of_lt (by omega)
        omega
      have hdiv : (K + 1) / N = K / N := by
        rw [Nat.succ_div, if_neg hdvd]
        omega
      have hmod1 : (K + 1) % N = K % N + 1 := by
        rw [← Nat.mod_add_mod]
        exact Nat.mod_eq_of_lt (by omega)
      rw [hdiv, hmod1]
      split_ifs <;> omega

/-- Ceiling division steps up exactly when the remainder is non-zero. -/
theorem ceil_div_succ (N K : Nat) (hN : 0 < N) (h : K % N ≠ 0) :
    (K + N - 1) / N = K / N + 1 := by
  have h1 := Nat.div_add_mod K N
  have hr : K % N < N := Nat.mod_lt _ hN
  have hK2 : K + N - 1 = N * (K / N) + (K % N + N - 1) := by
    generalize N * (K / N) = a at h1 ⊢
    omega
  rw [hK2, Nat.mul_add_div hN]
  have hone : (K % N + N - 1) / N = 1 := by
    have hlo : 1 * N ≤ K % N + N - 1 := by omega
    have hhi : K % N + N - 1 < (1 + 1) * N := by omega
    exact Nat.div_eq_of_lt_le hlo hhi
  omega

/-- C6: every dispatcher output for `K` consecutive accepts is a worker
index below `N`, and each worker is selected either `⌊K/N⌋` or
`⌈K/N⌉ = (K + N - 1) / N` times. -/
theorem C6_round_robin_fairness (N K : Nat) (hN : 0 < N) :
    (∀ x ∈ schedule_run N 0 K, x < N) ∧
    ∀ w, w < N →
      (schedule_run N 0 K).count w = K / N ∨
      (schedule_run N 0 K).count w = (K + N - 1) / N := by
  have hrun : schedule_run N 0 K = (List.range K).map (fun i => i % N) := by
    rw [schedule_run_eq]
    exact List.map_congr_left (fun i _ => by simp)
  constructor
  · intro x hx
    rw [hrun] at hx
    obtain ⟨i, _, rfl⟩ := List.mem_map.mp hx
    exact Nat.mod_lt _ hN
  · intro w hw
    rw [hrun, count_mod_range N w hN hw K]
    by_cases hlt : w < K % N
    · right
      rw [if_pos hlt, ceil_div_succ N K hN (by omega)]
    · left
      rw [if_neg hlt]
      omega

/-- Witness for C6 with 2 workers and 5 accepts, worker 0. -/
theorem C6_witness :
    (schedule_run 2 0 5).count 0 = 5 / 2 ∨ (schedule_run 2 0 5).count 0 = (5 + 2 - 1) / 2 :=
  (C6_round_robin_fairness 2 5 (by decide)).2 0 (by decide)

/-- Witness for C10 at the concrete full worker `w_full`. -/
theorem C10_witness :
    (handle_event w_full 7 false true 0 0).death_queue w_full.death_queue_first = 7 ∧
    (handle_event w_full 7 false true 0 0).death_queue_population = w_full.max_fd + 1 :=
  ⟨(C10_append_unchecked w_full 7 0 0 (by decide) (by decide) (by decide) (by decide)
      (by decide)).2.1,
   (C10_append_unchecked w_full 7 0 0 (by decide) (by decide) (by decide) (by decide)
      (by decide)).2.2.1⟩

end Lwan
